import Mathlib

/-!
Shallow embedding of the its-high-noon core: the daily task scheduler
(src/scheduler.py, class Scheduler) and the command dispatch engine
(src/line/cmd.py, class CommandBuilder).  Python dicts become association
lists, timestamps become natural numbers (minutes since an epoch), the
third-party schedule library's module-level job list becomes an explicit
field, and the non-reentrant threading.Lock is modelled explicitly where a
claim depends on it.
-/

namespace HighNoon

/-! ## Python string primitives (modelled structurally so the kernel can
evaluate them) -/

/-- Helper for pySplit: walks the characters, accumulating the current token
in reverse. -/
def pySplitAux : List Char → List Char → List String
  | [], acc => if acc.isEmpty then [] else [String.mk acc.reverse]
  | c :: rest, acc =>
    if c.isWhitespace then
      if acc.isEmpty then pySplitAux rest []
      else String.mk acc.reverse :: pySplitAux rest []
    else pySplitAux rest (c :: acc)

/-- Python str.split() with no argument: split on runs of whitespace and drop
empty tokens (whitespace here is the ASCII space, tab, CR, LF that the
program's inputs use). -/
def pySplit (s : String) : List String :=
  pySplitAux s.toList []

/-- ASCII lower-casing of one character, as Python str.lower acts on the
ASCII command names this program registers and parses. -/
def pyCharLower (c : Char) : Char :=
  if 'A' ≤ c ∧ c ≤ 'Z' then Char.ofNat (c.toNat + 32) else c

/-- Python str.lower() on the ASCII strings the program uses. -/
def pyLower (s : String) : String :=
  String.mk (s.toList.map pyCharLower)

/-- Substring occurrence test on character lists: true when the first list
occurs contiguously inside the second. -/
def containsSub (needle : List Char) : List Char → Bool
  | [] => needle.isEmpty
  | c :: rest => needle.isPrefixOf (c :: rest) || containsSub needle rest

/-- Python substring test: needle in hay. -/
def pyStrIn (needle hay : String) : Bool :=
  containsSub needle.toList hay.toList

/-- Helper for splitOnColon: accumulates the current field in reverse. -/
def splitOnColonAux : List Char → List Char → List String
  | [], acc => [String.mk acc.reverse]
  | c :: rest, acc =>
    if c = ':' then String.mk acc.reverse :: splitOnColonAux rest []
    else splitOnColonAux rest (c :: acc)

/-- Python s.split(":"): fields between colons, keeping empty fields. -/
def splitOnColon (s : String) : List String :=
  splitOnColonAux s.toList []

/-! ## Python dict as an association list (insertion-ordered, unique keys) -/

/-- Python d[k] lookup, None-free: some value or none. -/
def dictGet {κ α : Type} [BEq κ] (k : κ) : List (κ × α) → Option α
  | [] => none
  | kv :: rest => if kv.1 == k then some kv.2 else dictGet k rest

/-- Python k in d. -/
def dictContains {κ α : Type} [BEq κ] (k : κ) : List (κ × α) → Bool
  | [] => false
  | kv :: rest => kv.1 == k || dictContains k rest

/-- Python del d[k]. -/
def dictDel {κ α : Type} [BEq κ] (k : κ) : List (κ × α) → List (κ × α)
  | [] => []
  | kv :: rest => if kv.1 == k then dictDel k rest else kv :: dictDel k rest

/-- Python d[k] = v: overwrite in place when the key exists, else append. -/
def dictInsert {κ α : Type} [BEq κ] (k : κ) (v : α) : List (κ × α) → List (κ × α)
  | [] => [(k, v)]
  | kv :: rest => if kv.1 == k then (k, v) :: rest else kv :: dictInsert k v rest

/-- In-place mutation of the value stored under a key (Python
d[k].field = ...), a no-op when the key is absent. -/
def dictUpdate {κ α : Type} [BEq κ] (k : κ) (f : α → α) : List (κ × α) → List (κ × α)
  | [] => []
  | kv :: rest =>
    if kv.1 == k then (kv.1, f kv.2) :: dictUpdate k f rest
    else kv :: dictUpdate k f rest

/-! ## Command dispatch engine (src/line/cmd.py, class CommandBuilder)

A handler is modelled as a function from the context and the positional
argument tokens to an Except value: error stands for the Python handler
raising, which CommandBuilder does not catch. -/

/-- The Command dataclass of cmd.py.  optional_args is stored already
defaulted (register_command stores optional_args or []), so it is never
None here, exactly as in the running program. -/
structure Command (C R E : Type) where
  name : String
  func : C → List String → Except E R
  required_args : List String
  optional_args : List String

/-- The outcome of CommandBuilder.parse_and_execute: a returned value, one
of the three typed parse/arity exceptions of cmd.py, or an exception the
handler itself raised (propagated uncaught). -/
inductive CmdOutcome (R E : Type) where
  | ok (r : R)
  | noCommand
  | unknownCommand (name : String)
  | missingArguments (name : String) (required_args : List String)
  | handlerError (e : E)
  deriving DecidableEq

/-- CommandBuilder.register_command: stores the Command dataclass in the
self.commands dict under the name exactly as given (dictInsert: last
registration for the same key overwrites). -/
def register_command {C R E : Type} (reg : List (String × Command C R E))
    (name : String) (func : C → List String → Except E R)
    (required_args : List String) (optional_args : Option (List String)) :
    List (String × Command C R E) :=
  dictInsert name
    { name := name, func := func, required_args := required_args,
      optional_args := optional_args.getD [] } reg

/-- CommandBuilder.parse_and_execute, line for line:
split on whitespace; empty means NoCommandError; the first token is
lower-cased and looked up; a miss raises UnknownCommandError with the
lowered name; too few argument tokens raise MissingArgumentsError with the
lowered name and the full required_args list; otherwise the handler is
called on args[:args_amount] where args_amount is
len(required_args) + (len(optional_args) if optional_args else 0), and its
result (or uncaught exception) is returned verbatim. -/
def parse_and_execute {C R E : Type} (reg : List (String × Command C R E))
    (command_string : String) (ctx : C) : CmdOutcome R E :=
  match pySplit command_string with
  | [] => .noCommand
  | command_name :: args =>
    let cname := pyLower command_name
    match dictGet cname reg with
    | none => .unknownCommand cname
    | some command =>
      if args.length < command.required_args.length then
        .missingArguments cname command.required_args
      else
        let args_amount := command.required_args.length +
          (if command.optional_args.isEmpty then 0 else command.optional_args.length)
        match command.func ctx (args.take args_amount) with
        | .ok r => .ok r
        | .error e => .handlerError e

/-! ## UUIDs and Python renderings used by the scheduler's tag matching -/

/-- One lowercase hexadecimal digit (0-15 assumed). -/
def hexDigit (n : Nat) : Char :=
  if n < 10 then Char.ofNat (48 + n) else Char.ofNat (87 + n)

/-- The width most-significant-first hexadecimal digits of n. -/
def hexChars (n width : Nat) : List Char :=
  (List.range width).map (fun i => hexDigit (n / 16 ^ (width - 1 - i) % 16))

/-- Characters of Python str(uuid): the canonical hyphenated 8-4-4-4-12 form,
36 characters, for a UUID modelled as its 128-bit value. -/
def uuidChars (n : Nat) : List Char :=
  hexChars (n / 2 ^ 96) 8 ++ '-' :: hexChars (n / 2 ^ 80 % 2 ^ 16) 4
    ++ '-' :: hexChars (n / 2 ^ 64 % 2 ^ 16) 4
    ++ '-' :: hexChars (n / 2 ^ 48 % 2 ^ 16) 4
    ++ '-' :: hexChars (n % 2 ^ 48) 12

/-- Python str(uuid). -/
def uuidStr (n : Nat) : String :=
  String.mk (uuidChars n)

/-- Python repr of one string, as it appears inside str of a set. -/
def pyRepr (s : String) : String :=
  String.singleton (Char.ofNat 39) ++ s ++ String.singleton (Char.ofNat 39)

/-- Python str of a set of strings: "set()" when empty, else the elements
between braces (element order is immaterial here: the program only ever
builds empty tag sets). -/
def pySetStr (tags : List String) : String :=
  if tags.isEmpty then "set()"
  else "\x7b" ++ String.intercalate ", " (tags.map pyRepr) ++ "\x7d"

/-! ## Scheduler data model (src/scheduler.py) -/

/-- The ScheduledCallback dataclass.  The callback field is an opaque
reference to the registered action (its behaviour, together with the stored
callback_kwargs, is supplied to execute_callback as a function, see
ActionRun). -/
structure ScheduledCallback where
  id : Nat
  callback : Nat
  schedule_time : String
  enabled : Bool
  last_run : Option Nat
  next_run : Option Nat
  deriving DecidableEq

/-- One job of the third-party schedule library: its tag set (register never
calls .tag, so the program only ever creates jobs with an empty tag set),
its daily minute-of-day, the next_run the library maintains, and the
callback_id bound by .do(self.execute_callback, callback_id=...). -/
structure SchedJob where
  tags : List String
  tod : Nat
  next_run : Nat
  callback_id : Nat
  deriving DecidableEq

/-- The shared mutable state: the Scheduler's callbacks dict keyed by UUID,
and the schedule library's module-level job list. -/
structure SchedulerState where
  callbacks : List (Nat × ScheduledCallback)
  jobs : List SchedJob
  deriving DecidableEq

/-- Exceptions that can cross the boundaries the claims talk about. -/
inductive PyErr where
  | scheduleValueError
  | actionError (code : Nat)
  deriving DecidableEq

/-- Denotation of one action call made outside the lock: from the state at
the moment the lock is released, the state when the call returns (covering
both the action's own effects and any concurrent administrative calls that
ran meanwhile) and the exception the call raised, if any. -/
abbrev ActionRun := SchedulerState → SchedulerState × Option PyErr

/-- Parse of one two-digit decimal field. -/
def twoDigit (s : String) : Option Nat :=
  match s.toList with
  | [a, b] =>
    if a.isDigit ∧ b.isDigit then some ((a.toNat - 48) * 10 + (b.toNat - 48))
    else none
  | _ => none

/-- The schedule library's validation and parse of a daily .at time string:
it accepts exactly two-digit HH:MM (hour 0-23, minute 0-59) or HH:MM:SS
(second 0-59), returning the minute of day; none models the
ScheduleValueError the library raises for every other string. -/
def scheduleAtParse (s : String) : Option Nat :=
  match splitOnColon s with
  | [h, m] =>
    match twoDigit h, twoDigit m with
    | some hv, some mv =>
      if hv ≤ 23 ∧ mv ≤ 59 then some (hv * 60 + mv) else none
    | _, _ => none
  | [h, m, sec] =>
    match twoDigit h, twoDigit m, twoDigit sec with
    | some hv, some mv, some sv =>
      if hv ≤ 23 ∧ mv ≤ 59 ∧ sv ≤ 59 then some (hv * 60 + mv) else none
    | _, _, _ => none
  | _ => none

/-- The schedule library's next-run computation for a daily job at
minute-of-day tod: today's occurrence when still strictly in the future,
otherwise tomorrow's.  Times are minutes since the epoch. -/
def schedNextRun (tod now : Nat) : Nat :=
  if now < now / 1440 * 1440 + tod then now / 1440 * 1440 + tod
  else now / 1440 * 1440 + tod + 1440

/-- Scheduler.register.  freshId stands for the uuid4() draw and actionRef
for the callback object (with its kwargs).  The schedule library's .at
validates the time string before .do appends the job and before the
callbacks dict is assigned, so a ScheduleValueError leaves the state
untouched; the raised exception is returned as .error together with the
resulting global state. -/
def register (s : SchedulerState) (freshId actionRef : Nat)
    (schedule_time : String) (enabled : Bool) (now : Nat) :
    Except PyErr Nat × SchedulerState :=
  match scheduleAtParse schedule_time with
  | none => (.error .scheduleValueError, s)
  | some tod =>
    let job : SchedJob :=
      { tags := [], tod := tod, next_run := schedNextRun tod now,
        callback_id := freshId }
    let scheduled_callback : ScheduledCallback :=
      { id := freshId, callback := actionRef, schedule_time := schedule_time,
        enabled := enabled, last_run := none, next_run := some job.next_run }
    (.ok freshId,
      { callbacks := dictInsert freshId scheduled_callback s.callbacks,
        jobs := s.jobs ++ [job] })

/-- Scheduler.remove_callback.  schedule.clear(tag=str(callback_id)) keeps
exactly the library jobs that do not carry the tag; since register never
tags a job, it keeps them all. -/
def remove_callback (s : SchedulerState) (callback_id : Nat) :
    Bool × SchedulerState :=
  if dictContains callback_id s.callbacks then
    (true,
      { callbacks := dictDel callback_id s.callbacks,
        jobs := s.jobs.filter (fun j => !(j.tags.contains (uuidStr callback_id))) })
  else (false, s)

/-- The tag test of execute_callback's bookkeeping, verbatim from line 125:
str(callback_id) in str(job.tags), a substring test on the printed set. -/
def jobTagMatch (callback_id : Nat) (j : SchedJob) : Bool :=
  pyStrIn (uuidStr callback_id) (pySetStr j.tags)

/-- The second locked section of execute_callback: re-check membership (the
job may have been removed while the action ran), set last_run to the
recorded start time, and copy next_run from the first schedule-library job
whose printed tag set contains str(callback_id), if any. -/
def executeBookkeeping (callback_id now : Nat) (s1 : SchedulerState) :
    SchedulerState :=
  if dictContains callback_id s1.callbacks then
    let cbs := dictUpdate callback_id
      (fun cb => { cb with last_run := some now }) s1.callbacks
    match s1.jobs.filter (jobTagMatch callback_id) with
    | [] => { s1 with callbacks := cbs }
    | j :: _ =>
      let cbs2 := dictUpdate callback_id
        (fun cb => { cb with next_run := some j.next_run }) cbs
      { s1 with callbacks := cbs2 }
  else s1

/-- The body of execute_callback's try block.  An error is the exception
the action raised, paired with the state at that moment; it propagates to
the enclosing except handler, never further. -/
def executeBody (act : ActionRun) (callback_id now : Nat)
    (s : SchedulerState) :
    Except (PyErr × SchedulerState) (Bool × SchedulerState) :=
  match dictGet callback_id s.callbacks with
  | none => .ok (false, s)
  | some scheduled_callback =>
    if !scheduled_callback.enabled then .ok (true, s)
    else
      match act s with
      | (s1, some e) => .error (e, s1)
      | (s1, none) => .ok (true, executeBookkeeping callback_id now s1)

/-- Scheduler.execute_callback: the try body, with every exception caught
by the except handler (logged, converted to the False return). -/
def execute_callback (s : SchedulerState) (act : ActionRun)
    (callback_id now : Nat) : Except PyErr Bool × SchedulerState :=
  match executeBody act callback_id now s with
  | .ok (b, s1) => (.ok b, s1)
  | .error (_, s1) => (.ok false, s1)

/-! ## Status reporting and the non-reentrant lock (claim C2) -/

/-- The read-only snapshot dict built by get_callback_status. -/
structure CallbackStatus where
  id : String
  schedule_time : String
  enabled : Bool
  last_run : Option String
  next_run : Option String
  deriving DecidableEq

/-- Rendering of a timestamp by datetime.isoformat, modelled as its decimal
string (the claims never inspect the format). -/
def isoStr (t : Nat) : String := toString t

/-- Result of running code that acquires self._lock, a non-reentrant
threading.Lock: deadlock when the acquiring thread already holds the lock
(the acquire never returns), else the value. -/
inductive LockRes (α : Type) where
  | deadlock
  | ok (a : α)
  deriving DecidableEq

/-- Scheduler.get_callback_status: with self._lock, then a dict lookup.
lockHeld says whether the calling thread already holds self._lock when the
method is entered; a held non-reentrant lock blocks forever. -/
def get_callback_status (lockHeld : Bool) (s : SchedulerState)
    (callback_id : Nat) : LockRes (Option CallbackStatus) :=
  if lockHeld then .deadlock
  else .ok ((dictGet callback_id s.callbacks).map (fun cb =>
    { id := uuidStr cb.id, schedule_time := cb.schedule_time,
      enabled := cb.enabled, last_run := cb.last_run.map isoStr,
      next_run := cb.next_run.map isoStr }))

/-- Sequencing of the list comprehension's calls: the first call that
deadlocks blocks the whole comprehension forever. -/
def seqLock {α : Type} : List (LockRes α) → LockRes (List α)
  | [] => .ok []
  | .deadlock :: _ => .deadlock
  | .ok a :: rest =>
    match seqLock rest with
    | .deadlock => .deadlock
    | .ok l => .ok (a :: l)

/-- Scheduler.get_all_callbacks: acquires self._lock and, while holding it,
calls self.get_callback_status for every key of the callbacks dict. -/
def get_all_callbacks (s : SchedulerState) :
    LockRes (List (Option CallbackStatus)) :=
  seqLock (s.callbacks.map (fun kv => get_callback_status true s kv.1))

/-! ## Concrete states used by witnesses and counterexamples -/

/-- A freshly constructed Scheduler next to an empty schedule.jobs list. -/
def exEmpty : SchedulerState := { callbacks := [], jobs := [] }

/-- An action call that returns normally and leaves the state alone. -/
def exAction : ActionRun := fun s => (s, none)

/-- An action call that raises. -/
def exRaise : ActionRun := fun s => (s, some (.actionError 3))

/-- An action call during which the job with id 1 is removed. -/
def exRemove : ActionRun := fun s => ((remove_callback s 1).2, none)

/-- The state after registering one enabled daily callback for "08:00" at
minute 0 of day 0 (its first next_run is minute 480). -/
def exS : SchedulerState := (register exEmpty 1 7 "08:00" true 0).2

/-- The entry exS stores under id 1. -/
def exCb : ScheduledCallback :=
  { id := 1, callback := 7, schedule_time := "08:00", enabled := true,
    last_run := none, next_run := some 480 }

/-- The state after registering the same callback disabled. -/
def exDisabledS : SchedulerState := (register exEmpty 1 7 "08:00" false 0).2

/-- The entry exDisabledS stores under id 1. -/
def exDisabledCb : ScheduledCallback := { exCb with enabled := false }

/-- Decidable equality of Except values, for evaluating concrete outcomes. -/
instance {e a : Type} [DecidableEq e] [DecidableEq a] : DecidableEq (Except e a) := fun x y =>
  match x, y with
  | .ok v, .ok w =>
    if h : v = w then .isTrue (h ▸ rfl) else .isFalse (fun hh => h (Except.ok.inj hh))
  | .ok _, .error _ => .isFalse (fun hh => Except.noConfusion hh)
  | .error _, .ok _ => .isFalse (fun hh => Except.noConfusion hh)
  | .error v, .error w =>
    if h : v = w then .isTrue (h ▸ rfl) else .isFalse (fun hh => h (Except.error.inj hh))

/-- A handler returning 0, for concrete command registries. -/
def exFunc : Unit → List String → Except Unit Nat := fun _ _ => .ok 0

/-- A second handler returning 1, to observe which registration wins. -/
def exFunc2 : Unit → List String → Except Unit Nat := fun _ _ => .ok 1

/-- A registry holding one command registered under the mixed-case name
"Help". -/
def exMixedReg : List (String × Command Unit Nat Unit) :=
  register_command [] "Help" exFunc [] none

/-- A handler echoing back the argument tokens it was given. -/
def exEchoFunc : Unit → List String → Except Unit (List String) := fun _ l => .ok l

/-- The spec's echo example: one required argument named "msg". -/
def exEchoReg : List (String × Command Unit (List String) Unit) :=
  register_command [] "echo" exEchoFunc ["msg"] none

/-- The Command value exEchoReg stores under "echo". -/
def exEchoCmd : Command Unit (List String) Unit :=
  { name := "echo", func := exEchoFunc, required_args := ["msg"], optional_args := [] }

/-! ## Lemmas about the embedding -/

theorem dictGet_del_self {κ α : Type} [BEq κ] [LawfulBEq κ] (k : κ)
    (m : List (κ × α)) : dictGet k (dictDel k m) = none := by
  induction m with
  | nil => rfl
  | cons kv rest ih => cases hb : kv.1 == k <;> simp [dictDel, dictGet, hb, ih]

theorem dictGet_eq_none_of_not_contains {κ α : Type} [BEq κ] (k : κ)
    (m : List (κ × α)) (h : dictContains k m = false) : dictGet k m = none := by
  induction m with
  | nil => rfl
  | cons kv rest ih =>
    simp only [dictContains, Bool.or_eq_false_iff] at h
    simp [dictGet, h.1, ih h.2]

theorem dictContains_eq_isSome {κ α : Type} [BEq κ] (k : κ)
    (m : List (κ × α)) : dictContains k m = (dictGet k m).isSome := by
  induction m with
  | nil => rfl
  | cons kv rest ih => cases hb : kv.1 == k <;> simp [dictContains, dictGet, hb, ih]

theorem dictGet_update_self {κ α : Type} [BEq κ] [LawfulBEq κ] (k : κ)
    (f : α → α) (m : List (κ × α)) :
    dictGet k (dictUpdate k f m) = (dictGet k m).map f := by
  induction m with
  | nil => rfl
  | cons kv rest ih =>
    cases hb : kv.1 == k <;> simp [dictUpdate, dictGet, hb, ih]

theorem dictGet_insert_self {κ α : Type} [BEq κ] [LawfulBEq κ] (k : κ) (v : α)
    (m : List (κ × α)) : dictGet k (dictInsert k v m) = some v := by
  induction m with
  | nil => simp [dictInsert, dictGet]
  | cons kv rest ih => cases hb : kv.1 == k <;> simp [dictInsert, dictGet, hb, ih]

theorem dictGet_insert_ne {κ α : Type} [BEq κ] [LawfulBEq κ] (k j : κ) (v : α)
    (m : List (κ × α)) (h : j ≠ k) :
    dictGet j (dictInsert k v m) = dictGet j m := by
  have hne : ¬ k = j := fun hh => h hh.symm
  induction m with
  | nil => simp [dictInsert, dictGet, hne]
  | cons kv rest ih =>
    cases hb : kv.1 == k
    · simp [dictInsert, dictGet, hb, ih]
    · have hk : kv.1 = k := by simpa using hb
      simp [dictInsert, dictGet, hb, hk, hne, ih]

theorem uuidChars_length (n : Nat) : (uuidChars n).length = 36 := by
  simp [uuidChars, hexChars]

theorem containsSub_eq_false_of_length_lt {needle hay : List Char}
    (h : hay.length < needle.length) : containsSub needle hay = false := by
  induction hay with
  | nil =>
    cases needle with
    | nil => simp at h
    | cons a t => simp [containsSub]
  | cons c rest ih =>
    rw [List.length_cons] at h
    have hp : needle.isPrefixOf (c :: rest) = false := by
      cases hb : needle.isPrefixOf (c :: rest)
      · rfl
      · exfalso
        have hle := (List.isPrefixOf_iff_prefix.mp hb).length_le
        rw [List.length_cons] at hle
        omega
    simp [containsSub, hp, ih (by omega)]

/-- The 36-character str(uuid) can never occur inside "set()", the str of the
empty tag set every job of this program carries: the tag lookup on line 125
of scheduler.py matches no job. -/
theorem jobTagMatch_empty_tags (cid : Nat) (j : SchedJob) (hj : j.tags = []) :
    jobTagMatch cid j = false := by
  unfold jobTagMatch pyStrIn
  rw [hj]
  apply containsSub_eq_false_of_length_lt
  have h36 : (uuidStr cid).toList.length = 36 := uuidChars_length cid
  have h5 : (pySetStr []).toList.length = 5 := rfl
  omega

/-- Reduction of parse_and_execute when the command is found and enough
arguments are supplied: the handler runs on the truncated argument list and
its result (value or uncaught exception) is the outcome.  The pair
required+optional is the args_amount of line 68: when optional_args is
empty the Python conditional contributes 0 = len([]). -/
theorem parse_and_execute_runs {C R E : Type}
    (reg : List (String × Command C R E)) (line : String) (ctx : C)
    (t : String) (args : List String) (c : Command C R E)
    (hs : pySplit line = t :: args) (hd : dictGet (pyLower t) reg = some c)
    (hnlt : ¬ args.length < c.required_args.length) :
    parse_and_execute reg line ctx =
      match c.func ctx (args.take (c.required_args.length + c.optional_args.length)) with
      | .ok r => .ok r
      | .error e => .handlerError e := by
  rcases ho : c.optional_args with _ | ⟨o, os⟩ <;>
    simp [parse_and_execute, hs, hd, hnlt, ho]

/-! ## The claims -/

/-- C1: Scheduler.remove_callback returns True exactly when a job with the
given id is registered, deletes it from the job map, and cancels its future
firing: after the removal the worker's daily invocation of that id (via
execute_callback, for every possible action behaviour) finds no job, runs
no action, changes nothing and reports failure. -/
theorem remove_callback_spec (s : SchedulerState) (cid : Nat) :
    ((remove_callback s cid).1 = true ↔ dictContains cid s.callbacks = true) ∧
    dictGet cid (remove_callback s cid).2.callbacks = none ∧
    (∀ (act : ActionRun) (now : Nat),
      execute_callback (remove_callback s cid).2 act cid now =
        (.ok false, (remove_callback s cid).2)) := by
  have hget : dictGet cid (remove_callback s cid).2.callbacks = none := by
    cases hb : dictContains cid s.callbacks
    · simp [remove_callback, hb, dictGet_eq_none_of_not_contains cid s.callbacks hb]
    · simp [remove_callback, hb, dictGet_del_self]
  refine ⟨?_, hget, ?_⟩
  · cases hb : dictContains cid s.callbacks <;> simp [remove_callback, hb]
  · intro act now
    unfold execute_callback executeBody
    rw [hget]

/-- C2 (code bug): Scheduler.get_all_callbacks deadlocks instead of
returning the snapshots whenever the job map is non-empty: it acquires the
non-reentrant self._lock and then calls get_callback_status, which blocks
acquiring the same lock in the same thread.  Only the empty map returns. -/
theorem get_all_callbacks_deadlock (s : SchedulerState) (h : s.callbacks ≠ []) :
    get_all_callbacks s = .deadlock := by
  rcases hc : s.callbacks with _ | ⟨kv, rest⟩
  · exact absurd hc h
  · simp [get_all_callbacks, hc, get_callback_status, seqLock]

/-- C2, witness: the deadlock on a concrete one-job scheduler. -/
theorem get_all_callbacks_deadlock_witness :
    get_all_callbacks exS = .deadlock :=
  get_all_callbacks_deadlock exS (by decide)

/-- C3 (code bug): for an enabled job whose action returns successfully,
execute_callback updates last_run to the recorded invocation start time but
does NOT recompute next_run: the bookkeeping looks for schedule-library
jobs whose printed tag set contains str(callback_id), and register never
tags the job it creates, so the lookup matches nothing and next_run keeps
its registration-time value (cb1.next_run is carried over unchanged). -/
theorem execute_callback_last_run_only (s : SchedulerState) (act : ActionRun)
    (cid now : Nat) (cb cb1 : ScheduledCallback) (s1 : SchedulerState)
    (hget : dictGet cid s.callbacks = some cb) (hen : cb.enabled = true)
    (hact : act s = (s1, none)) (hget1 : dictGet cid s1.callbacks = some cb1)
    (htags : ∀ j ∈ s1.jobs, j.tags = []) :
    execute_callback s act cid now =
      (.ok true, { s1 with callbacks := dictUpdate cid (fun cb2 => { cb2 with last_run := some now }) s1.callbacks }) ∧
    dictGet cid (execute_callback s act cid now).2.callbacks =
      some { cb1 with last_run := some now } := by
  have hc : dictContains cid s1.callbacks = true := by
    rw [dictContains_eq_isSome, hget1]; rfl
  have hfilter : s1.jobs.filter (jobTagMatch cid) = [] := by
    apply List.filter_eq_nil_iff.mpr
    intro j hj
    simp [jobTagMatch_empty_tags cid j (htags j hj)]
  have hmain : execute_callback s act cid now =
      (.ok true, { s1 with callbacks := dictUpdate cid (fun cb2 => { cb2 with last_run := some now }) s1.callbacks }) := by
    unfold execute_callback executeBody executeBookkeeping
    rw [hget, hact]
    simp [hen, hc, hfilter]
  refine ⟨hmain, ?_⟩
  rw [hmain]
  simp [dictGet_update_self, hget1]

/-- C3, witness: one enabled job registered for "08:00" at minute 0 and
fired at minute 480; last_run becomes 480 while next_run stays at its
registration-time value inside exCb. -/
theorem execute_callback_last_run_only_witness :
    execute_callback exS exAction 1 480 =
      (.ok true, { exS with callbacks := dictUpdate 1 (fun cb2 => { cb2 with last_run := some 480 }) exS.callbacks }) ∧
    dictGet 1 (execute_callback exS exAction 1 480).2.callbacks =
      some { exCb with last_run := some 480 } :=
  execute_callback_last_run_only exS exAction 1 480 exCb exCb exS
    (by decide) (by decide) rfl (by decide) (by decide)

/-- C4, counterexample: firing the disabled job of exDisabledS at its
scheduled minute 480 returns success but leaves the state (hence the
stored next_run, still 480) completely unchanged, while the following
occurrence of its fire time computed the way the schedule library would is
minute 1920: next_run is not advanced to the following day. -/
theorem execute_callback_disabled_cex :
    (execute_callback exDisabledS exAction 1 480).1 = .ok true ∧
    (execute_callback exDisabledS exAction 1 480).2 = exDisabledS ∧
    (dictGet 1 (execute_callback exDisabledS exAction 1 480).2.callbacks).map
      ScheduledCallback.next_run = some (some 480) ∧
    schedNextRun 480 480 = 1920 ∧
    (dictGet 1 (execute_callback exDisabledS exAction 1 480).2.callbacks).map
      ScheduledCallback.next_run ≠ some (some (schedNextRun 480 480)) := by
  decide

/-- C4 (amended): firing a registered job whose enabled flag is False never
invokes the action (the outcome is the same for every action behaviour),
returns the success value True, and performs no bookkeeping at all:
execute_callback returns before the update block, so the job's stored
last_run and next_run are left exactly as they were. -/
theorem execute_callback_disabled_noop (s : SchedulerState) (act : ActionRun)
    (cid now : Nat) (cb : ScheduledCallback)
    (hget : dictGet cid s.callbacks = some cb) (hdis : cb.enabled = false) :
    execute_callback s act cid now = (.ok true, s) := by
  unfold execute_callback executeBody
  rw [hget]
  simp [hdis]

/-- C4, witness: the amended statement at the concrete disabled job. -/
theorem execute_callback_disabled_noop_witness :
    execute_callback exDisabledS exAction 1 480 = (.ok true, exDisabledS) :=
  execute_callback_disabled_noop exDisabledS exAction 1 480 exDisabledCb
    (by decide) (by decide)

/-- C5: execute_callback never lets an exception reach its caller: its
outcome is always an ordinary return value; a missing id yields the False
failure value with the state untouched; and an exception raised by the
enabled job's action is caught and converted to the False failure value. -/
theorem execute_callback_never_raises (s : SchedulerState) (act : ActionRun)
    (cid now : Nat) :
    (∃ b, (execute_callback s act cid now).1 = .ok b) ∧
    (dictGet cid s.callbacks = none →
      execute_callback s act cid now = (.ok false, s)) ∧
    (∀ (cb : ScheduledCallback) (s1 : SchedulerState) (e : PyErr),
      dictGet cid s.callbacks = some cb → cb.enabled = true →
      act s = (s1, some e) →
      execute_callback s act cid now = (.ok false, s1)) := by
  refine ⟨?_, ?_, ?_⟩
  · unfold execute_callback executeBody
    rcases hd : dictGet cid s.callbacks with _ | cb
    · exact ⟨false, rfl⟩
    · cases he : cb.enabled
      · exact ⟨true, by simp [he]⟩
      · rcases ha : act s with ⟨s1, eo⟩
        cases eo
        · exact ⟨true, by simp [he, ha]⟩
        · exact ⟨false, by simp [he, ha]⟩
  · intro h
    unfold execute_callback executeBody
    rw [h]
  · intro cb s1 e hget hen hact
    unfold execute_callback executeBody
    rw [hget, hact]
    simp [hen]

/-- C5, witness: the raising action on the concrete one-job scheduler is
caught and turned into the False return. -/
theorem execute_callback_never_raises_witness :
    execute_callback exS exRaise 1 480 = (.ok false, exS) :=
  (execute_callback_never_raises exS exRaise 1 480).2.2 exCb exS
    (.actionError 3) (by decide) (by decide) rfl

/-- C6, counterexample: register_command does not lower-case the stored
key.  Registering under "Help" stores the key "Help" verbatim ("help" is
absent), and parse_and_execute then cannot find the command for any casing
of the input token, because it looks up the case-folded token: both "Help"
and "HELP" raise UnknownCommandError instead of dispatching. -/
theorem register_command_case_cex :
    (dictGet "Help" exMixedReg).isSome = true ∧
    dictGet "help" exMixedReg = none ∧
    parse_and_execute exMixedReg "Help" () = .unknownCommand "help" ∧
    parse_and_execute exMixedReg "HELP" () = .unknownCommand "help" :=
  ⟨rfl, rfl, rfl, rfl⟩

/-- C6 (amended): register_command stores the command under the name
exactly as given; the last registration for the same name wins without
error and other keys are untouched; and because parse_and_execute
case-folds the first token before lookup, name lookup is case-insensitive
precisely for commands registered under an already-lower-case name (here
forced by pyLower t = n): any token that folds to the registered name finds
the command rather than raising UnknownCommandError. -/
theorem register_command_verbatim {C R E : Type}
    (reg : List (String × Command C R E)) (n : String)
    (f g : C → List String → Except E R) (req1 req2 : List String)
    (opt1 opt2 : Option (List String)) (t : String) (ctx : C)
    (ht : pyLower t = n) (hsplit : pySplit t = [t]) :
    dictGet n (register_command (register_command reg n f req1 opt1) n g req2 opt2) =
      some { name := n, func := g, required_args := req2, optional_args := opt2.getD [] } ∧
    (∀ m : String, m ≠ n →
      dictGet m (register_command reg n f req1 opt1) = dictGet m reg) ∧
    (∀ m : String,
      parse_and_execute (register_command reg n f req1 opt1) t ctx ≠ .unknownCommand m) := by
  have hfind : dictGet (pyLower t) (register_command reg n f req1 opt1) =
      some { name := n, func := f, required_args := req1, optional_args := opt1.getD [] } := by
    rw [ht]
    exact dictGet_insert_self n _ reg
  refine ⟨?_, ?_, ?_⟩
  · exact dictGet_insert_self n _ _
  · intro m hm
    exact dictGet_insert_ne n m _ reg hm
  · intro m
    simp [parse_and_execute, hsplit, hfind]
    split
    · exact fun h => CmdOutcome.noConfusion h
    · split <;> exact fun h => CmdOutcome.noConfusion h

/-- C6, witness: "echo" registered twice (second registration wins) and
found by the mixed-case token "EcHo". -/
theorem register_command_verbatim_witness :
    dictGet "echo" (register_command (register_command ([] : List (String × Command Unit Nat Unit)) "echo" exFunc [] none) "echo" exFunc2 ["x"] (some ["y"])) =
      some { name := "echo", func := exFunc2, required_args := ["x"], optional_args := (some ["y"]).getD [] } ∧
    (∀ m : String, m ≠ "echo" →
      dictGet m (register_command ([] : List (String × Command Unit Nat Unit)) "echo" exFunc [] none) = dictGet m []) ∧
    (∀ m : String,
      parse_and_execute (register_command ([] : List (String × Command Unit Nat Unit)) "echo" exFunc [] none) "EcHo" () ≠ .unknownCommand m) :=
  register_command_verbatim [] "echo" exFunc exFunc2 [] ["x"] none (some ["y"])
    "EcHo" () rfl rfl

/-- C7: the typed parse and arity errors of parse_and_execute, each exactly
characterised: NoCommandError iff the input tokenizes to zero tokens;
UnknownCommandError, carrying the case-folded first token, iff that folded
token is not a key of the registry; MissingArgumentsError, carrying the
folded name and the command's full required_args list, iff the command is
found and fewer argument tokens are supplied than len(required_args). -/
theorem parse_and_execute_error_taxonomy {C R E : Type}
    (reg : List (String × Command C R E)) (line : String) (ctx : C) :
    (parse_and_execute reg line ctx = .noCommand ↔ pySplit line = []) ∧
    (∀ m : String, parse_and_execute reg line ctx = .unknownCommand m ↔
      ∃ t args, pySplit line = t :: args ∧ m = pyLower t ∧
        dictGet (pyLower t) reg = none) ∧
    (∀ (m : String) (req : List String),
      parse_and_execute reg line ctx = .missingArguments m req ↔
      ∃ t args c, pySplit line = t :: args ∧ m = pyLower t ∧
        dictGet (pyLower t) reg = some c ∧ req = c.required_args ∧
        args.length < c.required_args.length) := by
  rcases hs : pySplit line with _ | ⟨t, args⟩
  · refine ⟨by simp [parse_and_execute, hs], ?_, ?_⟩
    · intro m
      simp [parse_and_execute, hs]
    · intro m req
      simp [parse_and_execute, hs]
  · rcases hd : dictGet (pyLower t) reg with _ | c
    · refine ⟨by simp [parse_and_execute, hs, hd], ?_, ?_⟩
      · intro m
        simp [parse_and_execute, hs, hd, eq_comm]
      · intro m req
        simp [parse_and_execute, hs, hd]
    · by_cases hlt : args.length < c.required_args.length
      · refine ⟨by simp [parse_and_execute, hs, hd, hlt], ?_, ?_⟩
        · intro m
          simp [parse_and_execute, hs, hd, hlt]
        · intro m req
          have hres : parse_and_execute reg line ctx =
              .missingArguments (pyLower t) c.required_args := by
            simp [parse_and_execute, hs, hd, hlt]
          rw [hres]
          constructor
          · intro h
            injection h with h1 h2
            exact ⟨t, args, c, rfl, h1.symm, hd, h2.symm, hlt⟩
          · rintro ⟨t1, args1, c1, h1, rfl, h3, rfl, h5⟩
            obtain ⟨rfl, rfl⟩ := List.cons.inj h1
            rw [hd] at h3
            obtain rfl := Option.some.inj h3
            rfl
      · have hres := parse_and_execute_runs reg line ctx t args c hs hd hlt
        refine ⟨?_, ?_, ?_⟩
        · rw [hres]
          constructor
          · intro h
            exfalso
            rcases hfr : c.func ctx
                (args.take (c.required_args.length + c.optional_args.length)) with r | e1 <;>
              rw [hfr] at h <;> exact CmdOutcome.noConfusion h
          · intro h
            exact absurd h (List.cons_ne_nil t args)
        · intro m
          rw [hres]
          constructor
          · intro h
            exfalso
            rcases hfr : c.func ctx
                (args.take (c.required_args.length + c.optional_args.length)) with r | e1 <;>
              rw [hfr] at h <;> exact CmdOutcome.noConfusion h
          · rintro ⟨t1, args1, h1, rfl, h3⟩
            obtain ⟨rfl, rfl⟩ := List.cons.inj h1
            rw [hd] at h3
            exact Option.noConfusion h3
        · intro m req
          rw [hres]
          constructor
          · intro h
            exfalso
            rcases hfr : c.func ctx
                (args.take (c.required_args.length + c.optional_args.length)) with r | e1 <;>
              rw [hfr] at h <;> exact CmdOutcome.noConfusion h
          · rintro ⟨t1, args1, c1, h1, rfl, h3, rfl, h5⟩
            obtain ⟨rfl, rfl⟩ := List.cons.inj h1
            rw [hd] at h3
            obtain rfl := Option.some.inj h3
            exact absurd h5 hlt

/-- C7, witness: whitespace-only input raises NoCommandError. -/
theorem parse_and_execute_error_taxonomy_witness :
    parse_and_execute ([] : List (String × Command Unit Nat Unit)) "   " () = .noCommand :=
  (parse_and_execute_error_taxonomy [] "   " ()).1.mpr rfl

/-- C8: for a registered command given at least len(required_args)
argument tokens, parse_and_execute returns verbatim the result of the
handler applied to the context and args truncated to
len(required_args) + len(optional_args) tokens (extra tokens silently
dropped); a handler that raises propagates its exception to the caller
uncaught (the handlerError outcome carries it unchanged). -/
theorem parse_and_execute_dispatch {C R E : Type}
    (reg : List (String × Command C R E)) (line : String) (ctx : C)
    (t : String) (args : List String) (c : Command C R E)
    (hsplit : pySplit line = t :: args)
    (hfind : dictGet (pyLower t) reg = some c)
    (hlen : c.required_args.length ≤ args.length) :
    parse_and_execute reg line ctx =
      match c.func ctx (args.take (c.required_args.length + c.optional_args.length)) with
      | .ok r => .ok r
      | .error e => .handlerError e :=
  parse_and_execute_runs reg line ctx t args c hsplit hfind (Nat.not_lt.mpr hlen)

/-- C8, witness: the spec's echo example, "echo hello world" with one
required argument invokes the handler on ["hello"] alone. -/
theorem parse_and_execute_dispatch_witness :
    parse_and_execute exEchoReg "echo hello world" () = .ok ["hello"] :=
  (parse_and_execute_dispatch exEchoReg "echo hello world" () "echo"
    ["hello", "world"] exEchoCmd rfl rfl (by decide)).trans rfl

/-- C9: when the job is removed while its action runs (the action phase
ends in a state with the id gone), execute_callback completes without
raising, reports success, applies no last_run or next_run bookkeeping, and
does not re-insert the removed job: the final state is exactly the
post-action state and the id stays absent. -/
theorem execute_callback_remove_mid_execution (s : SchedulerState)
    (act : ActionRun) (cid now : Nat) (cb : ScheduledCallback)
    (s1 : SchedulerState)
    (hget : dictGet cid s.callbacks = some cb) (hen : cb.enabled = true)
    (hact : act s = (s1, none)) (hgone : dictGet cid s1.callbacks = none) :
    execute_callback s act cid now = (.ok true, s1) ∧
    dictGet cid (execute_callback s act cid now).2.callbacks = none := by
  have hnc : dictContains cid s1.callbacks = false := by
    rw [dictContains_eq_isSome, hgone]; rfl
  have hmain : execute_callback s act cid now = (.ok true, s1) := by
    unfold execute_callback executeBody
    rw [hget, hact]
    simp [hen, executeBookkeeping, hnc]
  exact ⟨hmain, by rw [hmain]; exact hgone⟩

/-- C9, witness: an action that removes job 1 from the concrete one-job
scheduler while executing. -/
theorem execute_callback_remove_mid_execution_witness :
    execute_callback exS exRemove 1 480 = (.ok true, (remove_callback exS 1).2) ∧
    dictGet 1 (execute_callback exS exRemove 1 480).2.callbacks = none :=
  execute_callback_remove_mid_execution exS exRemove 1 480 exCb
    ((remove_callback exS 1).2) (by decide) (by decide) rfl (by decide)

/-- C10: a schedule_time string the schedule library's daily .at validation
rejects (not a well-formed HH:MM, nor HH:MM:SS, time of day) makes register
raise the ScheduleValueError to its caller before any mutation: the
returned state is the original one, with no entry added to the job map and
no job added to the underlying schedule. -/
theorem register_invalid_time_atomic (s : SchedulerState)
    (freshId actionRef : Nat) (schedule_time : String) (enabled : Bool)
    (now : Nat) (h : scheduleAtParse schedule_time = none) :
    register s freshId actionRef schedule_time enabled now =
      (.error .scheduleValueError, s) := by
  unfold register
  rw [h]

/-- C10, witness: the out-of-range hour "25:00" is rejected atomically. -/
theorem register_invalid_time_atomic_witness :
    register exEmpty 1 7 "25:00" true 0 = (.error .scheduleValueError, exEmpty) :=
  register_invalid_time_atomic exEmpty 1 7 "25:00" true 0 (by decide)

end HighNoon
